/-
Verification development for the EEL Kriging surrogate engine
(`EELSurrogate.cu`).  The CUDA kernels and their host wrappers are
shallowly embedded: a device or host buffer of doubles is a total
function `ℕ → K` over an ordered field `K` (instantiated at `ℚ` for
decidable evaluation and at `ℝ` where the code calls `exp`), a kernel
launch `<<<d, d>>>` touches exactly the flat indices `< d*d` (the
launch computes `index = blockIdx.x * blockDim.x + threadIdx.x`, with
`blockIdx.y = threadIdx.y = 0`, so the indices `0 .. d*d - 1` are each
covered by exactly one thread), and a launch `<<<d, 1>>>` touches the
indices `< d`.  Host wrappers perform a fixed sequence of CUDA calls
(allocations, host-to-device copies, a launch, a synchronize,
device-to-host copies); failure of any call is modelled by a fault
index `f : ℕ`, the position of the first failing CUDA call in that
sequence (`f` at least the number of calls means the wrapper
succeeds).  Memory returned by `cudaMalloc` is not zeroed; wherever
the code reads device memory it never wrote, the model takes the
uninitialized contents as an explicit function argument.
-/
import Mathlib

set_option autoImplicit false

/-- A flat column-major buffer of doubles, as a total function from
flat indices to field values. -/
abbrev Buf (K : Type) : Type := ℕ → K

universe u

variable {K : Type} [LinearOrderedField K]

/-- Per-thread body of the `createIdentMat` kernel: write 1 at flat
indices that are multiples of `dimension + 1` (the column-major
diagonal), 0 elsewhere. -/
def createIdentMat (dimension index : ℕ) : K :=
  if index % (dimension + 1) = 0 then 1 else 0

/-- Per-thread body of the `calcDistanceBetMats` kernel:
`out[idx] = pow(abs(a[idx] - b[idx]), 2)`. -/
def calcDistanceBetMats (inMatOne inMatTwo : Buf K) (index : ℕ) : K :=
  |inMatOne index - inMatTwo index| ^ 2

/-- Per-thread body of the `calcDistanceBetMatVec` kernel (launched
`<<<dimension, 1>>>`, so only indices `< dimension` run):
`out[idx] = pow(abs(inMat[idx] - inVec[idx]), 2)`. -/
def calcDistanceBetMatVec (inMat inVec : Buf K) (index : ℕ) : K :=
  |inMat index - inVec index| ^ 2

/-- Per-thread body of the `multiplyMatrix` kernel.  The source
accumulates with `output[index] += firInput[row + k*dimension] *
secInput[k + col*dimension]` over `k < dimension`, where
`row = index % dimension` and `col = index / dimension`; the starting
contents of the output buffer (uninitialized device memory in the
source) are the `output` argument. -/
def multiplyMatrix (output firInput secInput : Buf K) (dimension index : ℕ) : K :=
  output index + ∑ k ∈ Finset.range dimension,
    firInput (index % dimension + k * dimension) *
      secInput (k + index / dimension * dimension)

/-- Per-thread body of the `extendMat` kernel, called with the
extended dimension (`dimension` here is `n+1` of the original
matrix): bottom row (`(index+1) % dimension == 0`) gets 1, except the
bottom-right corner (`(int)sqrt(index+1) == dimension`) which gets 0;
the right column (`index >= dimension*(dimension-1)`) gets 1; other
positions copy `inMat[index]`. -/
def extendMat (inMat : Buf K) (dimension index : ℕ) : K :=
  if (index + 1) % dimension = 0 then
    (if Nat.sqrt (index + 1) = dimension then 0 else 1)
  else if dimension * (dimension - 1) ≤ index then 1
  else inMat index

/-- The `resetBuffers` kernel (launched `<<<dimension, dimension>>>`):
each thread with `index < 2*dimension` zeroes `vals[index]`; the
thread at index 0 also clears the shared ready flag (pure
synchronization state, with no effect on the numeric result, so it is
not carried in the model). -/
def resetBuffers (dimension : ℕ) (vals : Buf K) : Buf K :=
  fun index => if index < dimension * dimension ∧ index < 2 * dimension then 0
    else vals index

/-- Leader phase of the `normalizeRows` kernel: the thread at
`index = targetCol*(dimension+1)` (present when that index is inside
the launch grid) writes `firstVals[k] = inMat[index - targetCol + k]`
for `k` from `index % dimension` to `dimension - 1`, then raises the
ready flag on which all other threads spin. -/
def normalizeFirstVals (dimension : ℕ) (inMat firstVals : Buf K) (targetCol : ℕ) : Buf K :=
  fun k =>
    if targetCol * (dimension + 1) < dimension * dimension ∧
        (targetCol * (dimension + 1)) % dimension ≤ k ∧ k < dimension then
      inMat (targetCol * (dimension + 1) - targetCol + k)
    else firstVals k

/-- The `normalizeRows` kernel: after the leader fills `firstVals`
(and every follower has passed the spin-wait), each thread divides
its own entry of both matrices by `normVal = firstVals[index %
dimension]`, guarded by `normVal != 0 && index >= targetCol %
dimension`.  Each thread writes only its own flat index, so the
post-synchronization phase is deterministic.  Returns (new idenMat,
new inMat, new scratch buffer). -/
def normalizeRows (dimension : ℕ) (idenMat inMat firstVals : Buf K) (targetCol : ℕ) :
    Buf K × Buf K × Buf K :=
  (fun index =>
      if index < dimension * dimension ∧
          normalizeFirstVals dimension inMat firstVals targetCol (index % dimension) ≠ 0 ∧
          targetCol % dimension ≤ index then
        idenMat index / normalizeFirstVals dimension inMat firstVals targetCol (index % dimension)
      else idenMat index,
   fun index =>
      if index < dimension * dimension ∧
          normalizeFirstVals dimension inMat firstVals targetCol (index % dimension) ≠ 0 ∧
          targetCol % dimension ≤ index then
        inMat index / normalizeFirstVals dimension inMat firstVals targetCol (index % dimension)
      else inMat index,
   normalizeFirstVals dimension inMat firstVals targetCol)

/-- The `pivotDown` kernel: every thread whose row `index % dimension`
exceeds `targetRow` and whose row's pivot-column entry
`inMat[index % dimension + targetRow*dimension]` is non-zero subtracts
the pivot row's entry `m[index - (index % dimension - targetRow)]`
from its own entry, in both matrices.  All reads are modelled against
the pre-kernel state (each thread writes only its own index; the
entries of row `targetRow` that are read are never written in this
kernel). -/
def pivotDown (dimension : ℕ) (idenMat inMat : Buf K) (targetRow : ℕ) :
    Buf K × Buf K :=
  (fun index =>
      if index < dimension * dimension ∧ targetRow < index % dimension ∧
          inMat (index % dimension + targetRow * dimension) ≠ 0 then
        idenMat index - idenMat (index - (index % dimension - targetRow))
      else idenMat index,
   fun index =>
      if index < dimension * dimension ∧ targetRow < index % dimension ∧
          inMat (index % dimension + targetRow * dimension) ≠ 0 then
        inMat index - inMat (index - (index % dimension - targetRow))
      else inMat index)

/-- Leader phase of the `pivotUp` kernel: the thread at
`index = targetRow*(dimension+1)` writes
`lastVals[(index-k) % dimension] = inMat[index-k]` for `k` from
`index % dimension` down to 0, then raises the ready flag. -/
def pivotLastVals (dimension : ℕ) (inMat lastVals : Buf K) (targetRow : ℕ) : Buf K :=
  fun r =>
    if targetRow * (dimension + 1) < dimension * dimension ∧
        r ≤ (targetRow * (dimension + 1)) % dimension then
      inMat (targetRow * (dimension + 1) - ((targetRow * (dimension + 1)) % dimension - r))
    else lastVals r

/-- The `pivotUp` kernel: after the leader fills `lastVals`, each
thread whose row is strictly above `targetRow` subtracts
`lastVals[index % dimension] * m[index + targetRow - index % dimension]`
from its own entry, in both matrices.  Returns (new idenMat, new
inMat, new scratch buffer). -/
def pivotUp (dimension : ℕ) (idenMat inMat lastVals : Buf K) (targetRow : ℕ) :
    Buf K × Buf K × Buf K :=
  (fun index =>
      if index < dimension * dimension ∧ index % dimension < targetRow then
        idenMat index - pivotLastVals dimension inMat lastVals targetRow (index % dimension) *
          idenMat (index + targetRow - index % dimension)
      else idenMat index,
   fun index =>
      if index < dimension * dimension ∧ index % dimension < targetRow then
        inMat index - pivotLastVals dimension inMat lastVals targetRow (index % dimension) *
          inMat (index + targetRow - index % dimension)
      else inMat index,
   pivotLastVals dimension inMat lastVals targetRow)

/-- One iteration of the forward loop of `invertMatrix`:
`resetBuffers`, `normalizeRows`, `pivotDown` at pivot index `p`
(successive launches are separated by implicit device-wide
completion, so they compose sequentially). -/
def gjStep (dimension p : ℕ) (s : Buf K × Buf K × Buf K) : Buf K × Buf K × Buf K :=
  let r := normalizeRows dimension s.1 s.2.1 (resetBuffers dimension s.2.2) p
  let q := pivotDown dimension r.1 r.2.1 p
  (q.1, q.2, r.2.2)

/-- One iteration of the backward loop of `invertMatrix`:
`resetBuffers` then `pivotUp` at pivot index `p`. -/
def gjBackStep (dimension p : ℕ) (s : Buf K × Buf K × Buf K) : Buf K × Buf K × Buf K :=
  pivotUp dimension s.1 s.2.1 (resetBuffers dimension s.2.2) p

/-- The full kernel sequence launched by `invertMatrix`: the forward
loop over pivots `0 .. dimension-1`, then the backward loop over
pivots `dimension-1 .. 1`.  State is (paired matrix `deviceIdenMat`,
working matrix `deviceInMat`, scratch `deviceBuffer`); `buffer` is
the initial (uninitialized) contents of `deviceBuffer`. -/
def invertMatrixSeq (dimension : ℕ) (idenMat inMat buffer : Buf K) :
    Buf K × Buf K × Buf K :=
  ((List.range (dimension - 1)).map (fun k => dimension - 1 - k)).foldl
    (fun s p => gjBackStep dimension p s)
    ((List.range dimension).foldl (fun s p => gjStep dimension p s)
      (idenMat, inMat, buffer))

/-- The list `[n, n-1, ..., 0]`, the iteration order of each of the
two nested descending loops in `extendMatrix`. -/
def descList (n : ℕ) : List ℕ := (List.range (n + 1)).map (fun k => n - k)

/-- Iteration order of the in-place re-striding loop of
`extendMatrix`: outer index `i` descending from `dimension` to 0,
inner index `j` descending from `dimension` to 0. -/
def descPairs (n : ℕ) : List (ℕ × ℕ) :=
  (descList n).flatMap (fun i => (descList n).map (fun j => (i, j)))

/-- The in-place re-striding loop at the top of `extendMatrix`:
`inputMatrix[i + j*(dimension+1)] = inputMatrix[i + j*dimension]`,
executed in the order of `descPairs`, each assignment reading the
current (possibly already rewritten) buffer. -/
def restripeFold (dimension : ℕ) (b : Buf K) : Buf K :=
  (descPairs dimension).foldl
    (fun buf ij =>
      Function.update buf (ij.1 + ij.2 * (dimension + 1)) (buf (ij.1 + ij.2 * dimension)))
    b

/-- The flat indices written by the re-striding loop of
`extendMatrix`, in execution order. -/
def restripeWrites (dimension : ℕ) : List ℕ :=
  (descPairs dimension).map (fun ij => ij.1 + ij.2 * (dimension + 1))

/-- The flat indices of the second input (`secInput`) read by the
`multiplyMatrix` kernel thread at `index`: `k + (index / dimension) *
dimension` for `k < dimension`.  `calculateWeightVector` launches
this kernel with its covariance-vector device buffer (allocated with
only `dimension` doubles) as `secInput`. -/
def multiplyKernelVectorReads (dimension index : ℕ) : List ℕ :=
  (List.range dimension).map (fun k => k + index / dimension * dimension)

/-- Host wrapper `createIdentityMatrix`.  CUDA call sequence: 0
cudaMalloc, 1 cudaMemcpy host-to-device, 2 kernel launch check, 3
cudaMemcpy device-to-host (which overwrites the host buffer).  The
wrapper succeeds, and the host buffer is overwritten, exactly when
all 4 calls succeed (`4 ≤ f`). -/
def createIdentityMatrix (f : ℕ) (matrix : Buf K) (dimension : ℕ) : Bool × Buf K :=
  (decide (4 ≤ f),
   if 4 ≤ f then
     (fun index => if index < dimension * dimension then createIdentMat dimension index
       else matrix index)
   else matrix)

/-- Host wrapper `calculateDistanceBetweenMatrices`.  CUDA calls:
0-2 cudaMalloc, 3-4 cudaMemcpy host-to-device, 5 launch check, 6
synchronize, 7 cudaMemcpy device-to-host. -/
def calculateDistanceBetweenMatrices (f : ℕ)
    (outputMatrix inMatrixOne inMatrixTwo : Buf K) (dimension : ℕ) : Bool × Buf K :=
  (decide (8 ≤ f),
   if 8 ≤ f then
     (fun index => if index < dimension * dimension then
         calcDistanceBetMats inMatrixOne inMatrixTwo index
       else outputMatrix index)
   else outputMatrix)

/-- Host wrapper `calculateDistanceBetweenMatrixVector`.  CUDA calls:
0-2 cudaMalloc, 3-4 cudaMemcpy host-to-device, 5 launch check
(grid `<<<dimension, 1>>>`, so only indices `< dimension` are
computed), 6 synchronize, 7 cudaMemcpy device-to-host of the full
`dimension * dimension` output buffer — entries `dimension ≤ index <
dimension²` of the device output were never written by the kernel, so
the host receives the uninitialized device contents `deviceOutTail`
there. -/
def calculateDistanceBetweenMatrixVector (deviceOutTail : Buf K) (f : ℕ)
    (outputMatrix inMatrix inVector : Buf K) (dimension : ℕ) : Bool × Buf K :=
  (decide (8 ≤ f),
   if 8 ≤ f then
     (fun index =>
       if index < dimension then calcDistanceBetMatVec inMatrix inVector index
       else if index < dimension * dimension then deviceOutTail index
       else outputMatrix index)
   else outputMatrix)

/-- Host wrapper `extendMatrix`.  Before any CUDA call it runs the
in-place re-striding loop on the caller's `inputMatrix` (so the input
buffer is mutated on every call, even when the first allocation
fails).  CUDA calls: 0-1 cudaMalloc, 2 cudaMemcpy host-to-device, 3
launch check (`extendMat` is launched with dimension `dimension+1`),
4 synchronize, 5 cudaMemcpy device-to-host.  Returns (status, new
output buffer, new input buffer). -/
def extendMatrix (f : ℕ) (outputMatrix inputMatrix : Buf K) (dimension : ℕ) :
    Bool × Buf K × Buf K :=
  (decide (6 ≤ f),
   (if 6 ≤ f then
      (fun index => if index < (dimension + 1) * (dimension + 1) then
          extendMat (restripeFold dimension inputMatrix) (dimension + 1) index
        else outputMatrix index)
    else outputMatrix,
    restripeFold dimension inputMatrix))

/-- Host wrapper `invertMatrix`.  CUDA calls: 0-3 cudaMalloc, 4-6
cudaMemcpy host-to-device, 7 launch check after the two kernel loops,
8 synchronize, 9 cudaMemcpy device-to-host into `outputMatrix`, 10
cudaMemcpy device-to-host into `inputMatrix`.  `deviceGarbage` is the
uninitialized contents of the scratch `deviceBuffer`.  Note that
`outputMatrix` is already overwritten when call 10 fails (`f = 10`)
although the wrapper then reports failure. -/
def invertMatrix (deviceGarbage : Buf K) (f : ℕ) (outputMatrix inputMatrix : Buf K)
    (dimension : ℕ) : Bool × Buf K × Buf K :=
  (decide (11 ≤ f),
   (if 10 ≤ f then (invertMatrixSeq dimension outputMatrix inputMatrix deviceGarbage).1
    else outputMatrix,
    if 11 ≤ f then (invertMatrixSeq dimension outputMatrix inputMatrix deviceGarbage).2.1
    else inputMatrix))

/-- Host wrapper `calculateWeightVector`.  CUDA calls: 0-2 cudaMalloc
(the covariance-vector device buffer gets only `dimension` doubles),
3-4 cudaMemcpy host-to-device (only `dimension` doubles of the
vector), 5 launch check, 6 synchronize, 7 cudaMemcpy device-to-host
of `dimension * dimension` doubles.  The `multiplyMatrix` kernel
reads the vector buffer at indices up to `dimension² - 1`; past
`dimension` those reads fall outside the allocation and the model
returns the unallocated-memory contents `deviceVecTail`.  `deviceOut`
is the uninitialized device output that `+=` accumulates onto. -/
def calculateWeightVector (deviceOut deviceVecTail : Buf K) (f : ℕ)
    (outputVectorMatrix invertedCovarianceMatrix covarianceVectorMatrix : Buf K)
    (dimension : ℕ) : Bool × Buf K :=
  (decide (8 ≤ f),
   if 8 ≤ f then
     (fun index => if index < dimension * dimension then
         multiplyMatrix deviceOut invertedCovarianceMatrix
           (fun j => if j < dimension then covarianceVectorMatrix j else deviceVecTail j)
           dimension index
       else outputVectorMatrix index)
   else outputVectorMatrix)

/-- Host wrapper `multiplyMatrices` (the host `output` buffer is the
first factor and receives the product).  CUDA calls: 0-2 cudaMalloc,
3-4 cudaMemcpy host-to-device, 5 launch check, 6 cudaMemcpy
device-to-host (there is no synchronize in this wrapper).
`deviceOut` is the uninitialized device output accumulated onto by
the kernel's `+=`. -/
def multiplyMatrices (deviceOut : Buf K) (f : ℕ) (output inputMatrix : Buf K)
    (dimension : ℕ) : Bool × Buf K :=
  (decide (7 ≤ f),
   if 7 ≤ f then
     (fun index => if index < dimension * dimension then
         multiplyMatrix deviceOut output inputMatrix dimension index
       else output index)
   else output)

/-- Per-thread body of the `calcGaussCorr` kernel:
`out[idx] = (variance - a) * exp(negOne * theta * inMat[idx])` with
`negOne = -1`. -/
noncomputable def calcGaussCorr (inMat : ℕ → ℝ) (variance a theta : ℝ) (index : ℕ) : ℝ :=
  (variance - a) * Real.exp (-1 * theta * inMat index)

/-- Host wrapper `calculateGaussianCorrelation`.  CUDA calls: 0-1
cudaMalloc, 2-3 cudaMemcpy host-to-device, 4 launch check, 5
synchronize, 6 cudaMemcpy device-to-host. -/
noncomputable def calculateGaussianCorrelation (f : ℕ) (outputMatrix inMatrix : ℕ → ℝ)
    (variance a theta : ℝ) (dimension : ℕ) : Bool × (ℕ → ℝ) :=
  (decide (7 ≤ f),
   if 7 ≤ f then
     (fun index => if index < dimension * dimension then
         calcGaussCorr inMatrix variance a theta index
       else outputMatrix index)
   else outputMatrix)

/-- The host `for` loop in `metamodelSetup` that zeroes the first
`size` entries of a freshly `malloc`ed buffer whose further contents
are unspecified (`b`). -/
def zeroInit (size : ℕ) (b : Buf K) : Buf K :=
  fun index => if index < size then 0 else b index

/-- The state of `identityMatrix` inside `metamodelSetup` at the
moment `invertMatrix` is called with it: the buffer is zero-filled up
to `(dimension+1)²` and then passed through `createIdentityMatrix`
with argument `dimension` (not `dimension + 1`); no other statement
of the driver writes to it before the inversion. -/
def pairedBufferAtInversion (hostGarbage : Buf K) (f dimension : ℕ) : Buf K :=
  (createIdentityMatrix (f - 1)
    (zeroInit ((dimension + 1) * (dimension + 1)) hostGarbage) dimension).2

/-- Observable outcome of one `metamodelSetup` run: the returned
double, how many of the ten device-facing steps (cudaSetDevice plus
the nine wrapped operations) were attempted, and whether the failure
diagnostics at `SetupError` were printed. -/
structure DriverResult where
  value : ℝ
  stepsRun : ℕ
  logged : Bool

/-- The step at which the driver stops when the global CUDA call `f`
fails, from the per-wrapper call counts (setDevice 1 call, then 4, 8,
8, 7, 7, 6, 11, 8, 7 calls for the nine wrapped operations). -/
def driverStepOfCall (f : ℕ) : ℕ :=
  if f < 1 then 1 else if f < 5 then 2 else if f < 13 then 3 else if f < 21 then 4
  else if f < 28 then 5 else if f < 35 then 6 else if f < 41 then 7
  else if f < 52 then 8 else if f < 60 then 9 else 10

/-- The pipeline driver `metamodelSetup`.  `f` is the global index of
the first failing CUDA call across the whole run (67 calls in total
on the success path); each wrapper receives the local offset of `f`.
The first four buffer arguments are uninitialized device memory
observed by the run (the `<<<n,1>>>` distance kernel's unwritten
output tail, `invertMatrix`'s scratch buffer, and the two `+=`
output buffers), the next three the contents of the three host
`malloc`s beyond the zero-initialization loop.  On any step failure
the driver jumps to `SetupError`, prints the diagnostics, frees the
three host buffers, and returns the initial `outputValue = 0`. -/
noncomputable def metamodelSetup (gDistTail gInvBuf gWeightOut gVecTail gMultOut : ℕ → ℝ)
    (hostG1 hostG2 hostG3 : ℕ → ℝ) (f dimension : ℕ) (theta variance a : ℝ)
    (designSite testSite designSiteValues : ℕ → ℝ) : DriverResult :=
  let N := (dimension + 1) * (dimension + 1)
  let identityMatrix := zeroInit N hostG1
  let tempMatrixOne := zeroInit N hostG2
  let tempMatrixTwo := zeroInit N hostG3
  if f < 1 then ⟨0, 1, true⟩ else
  let r1 := createIdentityMatrix (f - 1) identityMatrix dimension
  if r1.1 then
    let r2 := calculateDistanceBetweenMatrices (f - 5) tempMatrixOne designSite
      designSiteValues dimension
    if r2.1 then
      let r3 := calculateDistanceBetweenMatrixVector gDistTail (f - 13) tempMatrixTwo
        designSite testSite dimension
      if r3.1 then
        let r4 := calculateGaussianCorrelation (f - 21) r2.2 r2.2 variance a theta dimension
        if r4.1 then
          let r5 := calculateGaussianCorrelation (f - 28) r3.2 r3.2 variance a theta dimension
          if r5.1 then
            let t2c := fun index => if dimension ≤ index ∧ index < N then 0 else r5.2 index
            let r6 := extendMatrix (f - 35) r4.2 r4.2 dimension
            if r6.1 then
              let t2d := fun index => if index = dimension then 1 else t2c index
              let r7 := invertMatrix gInvBuf (f - 41) r1.2 r6.2.1 (dimension + 1)
              if r7.1 then
                let r8 := calculateWeightVector gWeightOut gVecTail (f - 52)
                  t2d r7.2.2 t2d (dimension + 1)
                if r8.1 then
                  let r9 := multiplyMatrices gMultOut (f - 60) r8.2 designSiteValues
                    (dimension + 1)
                  if r9.1 then ⟨r9.2 0, 10, false⟩
                  else ⟨0, 10, true⟩
                else ⟨0, 9, true⟩
              else ⟨0, 8, true⟩
            else ⟨0, 7, true⟩
          else ⟨0, 6, true⟩
        else ⟨0, 5, true⟩
      else ⟨0, 4, true⟩
    else ⟨0, 3, true⟩
  else ⟨0, 2, true⟩

lemma leader_lt (n p : ℕ) (hp : p < n) : p * (n + 1) < n * n := by
  have h1 : (p + 1) * (n + 1) ≤ n * (n + 1) := Nat.mul_le_mul_right _ hp
  have h2 : (p + 1) * (n + 1) = p * (n + 1) + (n + 1) := by ring
  have h3 : n * (n + 1) = n * n + n := by ring
  omega

lemma leader_mod (n p : ℕ) (hp : p < n) : (p * (n + 1)) % n = p := by
  have h1 : p * (n + 1) = p + p * n := by ring
  rw [h1, Nat.add_mul_mod_self_right, Nat.mod_eq_of_lt hp]

lemma createIdentMat_mul_add (n p k : ℕ) (hp : p < n) (hk : k < n) :
    (createIdentMat n (p * n + k) : K) = if k = p then 1 else 0 := by
  unfold createIdentMat
  rcases le_or_lt p k with h | h
  · have e : p * n + k = (k - p) + p * (n + 1) := by
      have h1 : p * (n + 1) = p * n + p := by ring
      omega
    rw [e, Nat.add_mul_mod_self_right, Nat.mod_eq_of_lt (by omega)]
    by_cases hkp : k = p
    · rw [if_pos (by omega), if_pos hkp]
    · rw [if_neg (by omega), if_neg hkp]
  · obtain ⟨q, rfl⟩ : ∃ q, p = q + 1 := ⟨p - 1, by omega⟩
    have e : (q + 1) * n + k = (n + 1 - (q + 1 - k)) + q * (n + 1) := by
      have h1 : q * (n + 1) = q * n + q := by ring
      have h2 : (q + 1) * n = q * n + n := by ring
      omega
    rw [e, Nat.add_mul_mod_self_right, Nat.mod_eq_of_lt (by omega)]
    rw [if_neg (by omega), if_neg (by omega)]

lemma resetBuffers_small (n : ℕ) (hn : 1 ≤ n) (b : Buf K) (k : ℕ) (hk : k < n) :
    resetBuffers n b k = 0 := by
  unfold resetBuffers
  have h1 : n ≤ n * n := Nat.le_mul_of_pos_left n hn
  rw [if_pos ⟨by omega, by omega⟩]

lemma normalizeFirstVals_ident (n p : ℕ) (hn : 1 ≤ n) (hp : p < n) (b : Buf K)
    (k : ℕ) (hk : k < n) :
    normalizeFirstVals n (createIdentMat n : Buf K) (resetBuffers n b) p k
      = if k = p then 1 else 0 := by
  unfold normalizeFirstVals
  rw [leader_mod n p hp]
  by_cases hpk : p ≤ k
  · rw [if_pos ⟨leader_lt n p hp, hpk, hk⟩]
    have e : p * (n + 1) - p + k = p * n + k := by
      have h1 : p * (n + 1) = p * n + p := by ring
      omega
    rw [e, createIdentMat_mul_add n p k hp hk]
  · rw [if_neg (by tauto), resetBuffers_small n hn b k hk, if_neg (by omega)]

lemma normalizeRows_ident (n p : ℕ) (hn : 1 ≤ n) (hp : p < n) (b : Buf K) :
    (normalizeRows n (createIdentMat n : Buf K) (createIdentMat n)
        (resetBuffers n b) p).1 = (createIdentMat n : Buf K) ∧
    (normalizeRows n (createIdentMat n : Buf K) (createIdentMat n)
        (resetBuffers n b) p).2.1 = (createIdentMat n : Buf K) := by
  have key : ∀ m : Buf K, (fun index =>
      if index < n * n ∧
          normalizeFirstVals n (createIdentMat n : Buf K) (resetBuffers n b) p
            (index % n) ≠ 0 ∧ p % n ≤ index then
        m index / normalizeFirstVals n (createIdentMat n : Buf K) (resetBuffers n b) p
          (index % n)
      else m index) = m := by
    intro m
    funext index
    split_ifs with h
    · obtain ⟨h1, h2, h3⟩ := h
      rw [normalizeFirstVals_ident n p hn hp b (index % n) (Nat.mod_lt _ (by omega))] at h2 ⊢
      by_cases hip : index % n = p
      · rw [if_pos hip, div_one]
      · rw [if_neg hip] at h2
        exact absurd rfl h2
    · rfl
  exact ⟨key _, key _⟩

lemma pivotDown_ident (n p : ℕ) (hn : 1 ≤ n) (hp : p < n) :
    pivotDown n (createIdentMat n : Buf K) (createIdentMat n) p
      = ((createIdentMat n : Buf K), (createIdentMat n : Buf K)) := by
  have key : ∀ index : ℕ, ¬ (index < n * n ∧ p < index % n ∧
      (createIdentMat n (index % n + p * n) : K) ≠ 0) := by
    rintro index ⟨h1, h2, h3⟩
    have hk : index % n < n := Nat.mod_lt _ (by omega)
    have e : index % n + p * n = p * n + index % n := by ring
    rw [e, createIdentMat_mul_add n p (index % n) hp hk, if_neg (by omega)] at h3
    exact h3 rfl
  unfold pivotDown
  refine Prod.ext ?_ ?_ <;> · funext index; dsimp only; rw [if_neg (key index)]

lemma pivotLastVals_ident (n p : ℕ) (hp : p < n) (b : Buf K) (r : ℕ) (hr : r < p) :
    pivotLastVals n (createIdentMat n : Buf K) (resetBuffers n b) p r = 0 := by
  unfold pivotLastVals
  rw [leader_mod n p hp, if_pos ⟨leader_lt n p hp, by omega⟩]
  have e : p * (n + 1) - (p - r) = p * n + r := by
    have h1 : p * (n + 1) = p * n + p := by ring
    omega
  rw [e, createIdentMat_mul_add n p r hp (by omega), if_neg (by omega)]

lemma pivotUp_ident (n p : ℕ) (hn : 1 ≤ n) (hp : p < n) (b : Buf K) :
    (pivotUp n (createIdentMat n : Buf K) (createIdentMat n)
        (resetBuffers n b) p).1 = (createIdentMat n : Buf K) ∧
    (pivotUp n (createIdentMat n : Buf K) (createIdentMat n)
        (resetBuffers n b) p).2.1 = (createIdentMat n : Buf K) := by
  have key : ∀ m : Buf K, (fun index =>
      if index < n * n ∧ index % n < p then
        m index - pivotLastVals n (createIdentMat n : Buf K) (resetBuffers n b) p
            (index % n) * m (index + p - index % n)
      else m index) = m := by
    intro m
    funext index
    split_ifs with h
    · rw [pivotLastVals_ident n p hp b (index % n) h.2, zero_mul, sub_zero]
    · rfl
  exact ⟨key _, key _⟩

lemma gjStep_ident (n p : ℕ) (hn : 1 ≤ n) (hp : p < n) (b : Buf K) :
    ∃ b2, gjStep n p ((createIdentMat n : Buf K), (createIdentMat n : Buf K), b)
      = ((createIdentMat n : Buf K), (createIdentMat n : Buf K), b2) := by
  obtain ⟨e1, e2⟩ := normalizeRows_ident n p hn hp b
  refine ⟨(normalizeRows n (createIdentMat n : Buf K) (createIdentMat n)
    (resetBuffers n b) p).2.2, ?_⟩
  unfold gjStep
  dsimp only
  rw [e1, e2, pivotDown_ident n p hn hp]

lemma gjBackStep_ident (n p : ℕ) (hn : 1 ≤ n) (hp : p < n) (b : Buf K) :
    ∃ b2, gjBackStep n p ((createIdentMat n : Buf K), (createIdentMat n : Buf K), b)
      = ((createIdentMat n : Buf K), (createIdentMat n : Buf K), b2) := by
  obtain ⟨e1, e2⟩ := pivotUp_ident n p hn hp b
  refine ⟨(pivotUp n (createIdentMat n : Buf K) (createIdentMat n)
    (resetBuffers n b) p).2.2, ?_⟩
  unfold gjBackStep
  dsimp only
  exact Prod.ext e1 (Prod.ext e2 rfl)

lemma foldl_gjStep_ident (n : ℕ) (hn : 1 ≤ n) :
    ∀ (l : List ℕ), (∀ p ∈ l, p < n) → ∀ b : Buf K,
      ∃ b2, l.foldl (fun s p => gjStep n p s)
          ((createIdentMat n : Buf K), (createIdentMat n : Buf K), b)
        = ((createIdentMat n : Buf K), (createIdentMat n : Buf K), b2)
  | [], _, b => ⟨b, rfl⟩
  | p :: l, h, b => by
      obtain ⟨b1, e1⟩ := gjStep_ident (K := K) n p hn (h p (by simp)) b
      rw [List.foldl_cons, e1]
      exact foldl_gjStep_ident n hn l (fun q hq => h q (by simp [hq])) b1

lemma foldl_gjBackStep_ident (n : ℕ) (hn : 1 ≤ n) :
    ∀ (l : List ℕ), (∀ p ∈ l, p < n) → ∀ b : Buf K,
      ∃ b2, l.foldl (fun s p => gjBackStep n p s)
          ((createIdentMat n : Buf K), (createIdentMat n : Buf K), b)
        = ((createIdentMat n : Buf K), (createIdentMat n : Buf K), b2)
  | [], _, b => ⟨b, rfl⟩
  | p :: l, h, b => by
      obtain ⟨b1, e1⟩ := gjBackStep_ident (K := K) n p hn (h p (by simp)) b
      rw [List.foldl_cons, e1]
      exact foldl_gjBackStep_ident n hn l (fun q hq => h q (by simp [hq])) b1

/-- C1: for every dimension `n ≥ 1`, running the full inversion
sequence of `invertMatrix` (forward pass `resetBuffers`,
`normalizeRows`, `pivotDown` for pivots `0 .. n-1`, then backward
pass `resetBuffers`, `pivotUp` for pivots `n-1 .. 1`) with the `n×n`
identity matrix as the working matrix and the identity matrix as the
paired buffer leaves the working matrix equal to the identity and the
paired matrix holding the true inverse — also the identity —
whatever the initial contents of the scratch buffer. -/
theorem inversion_of_identity_is_identity (n : ℕ) (hn : 1 ≤ n) (buffer : Buf ℚ) :
    (invertMatrixSeq n (createIdentMat n : Buf ℚ) (createIdentMat n) buffer).2.1
        = (createIdentMat n : Buf ℚ) ∧
    (invertMatrixSeq n (createIdentMat n : Buf ℚ) (createIdentMat n) buffer).1
        = (createIdentMat n : Buf ℚ) := by
  unfold invertMatrixSeq
  obtain ⟨b1, e1⟩ := foldl_gjStep_ident (K := ℚ) n hn (List.range n)
    (fun p hp => List.mem_range.mp hp) buffer
  rw [e1]
  obtain ⟨b2, e2⟩ := foldl_gjBackStep_ident (K := ℚ) n hn
    ((List.range (n - 1)).map (fun k => n - 1 - k))
    (by
      intro p hp
      obtain ⟨k, hk, rfl⟩ := List.mem_map.mp hp
      omega) b1
  rw [e2]
  exact ⟨rfl, rfl⟩

/-- Witness for C1 at `n = 3` with scratch buffer initialized to 7. -/
theorem inversion_of_identity_is_identity_witness :
    (invertMatrixSeq 3 (createIdentMat 3 : Buf ℚ) (createIdentMat 3) (fun _ => 7)).2.1
        = (createIdentMat 3 : Buf ℚ) ∧
    (invertMatrixSeq 3 (createIdentMat 3 : Buf ℚ) (createIdentMat 3) (fun _ => 7)).1
        = (createIdentMat 3 : Buf ℚ) :=
  inversion_of_identity_is_identity 3 (by omega) (fun _ => 7)

/-- C3 counterexample: the `multiplyMatrix` kernel accumulates with
`+=` onto the device output buffer, whose `cudaMalloc`ed contents are
not zeroed; with the output buffer starting at 1 and both factors
zero (dimension 1, index 0) the kernel produces 1, while the sum
`∑ k, a[row + k·n]·b[k + col·n]` claimed by the specification is 0. -/
theorem multiplyMatrix_garbage_counterexample :
    multiplyMatrix (fun _ => (1 : ℚ)) (fun _ => 0) (fun _ => 0) 1 0 = 1 ∧
    (∑ k ∈ Finset.range 1,
      (fun _ => (0 : ℚ)) (0 % 1 + k * 1) * (fun _ => (0 : ℚ)) (k + 0 / 1 * 1)) = 0 ∧
    (1 : ℚ) ≠ 0 := by
  refine ⟨?_, by simp, by norm_num⟩
  simp [multiplyMatrix]

/-- C3 amended: the dense-multiply operation adds
`∑ k, a[row + k·n]·b[k + col·n]` to the prior contents of the device
output buffer; when that buffer starts zeroed, the output equals the
claimed sum, and multiplying any matrix by the identity reproduces
it exactly. -/
theorem multiplyMatrices_formula_and_identity (n f idx : ℕ) (a b d0 : Buf ℚ)
    (hf : 7 ≤ f) (h : idx < n * n) :
    (multiplyMatrices d0 f a b n).2 idx
        = d0 idx + ∑ k ∈ Finset.range n, a (idx % n + k * n) * b (k + idx / n * n) ∧
    (multiplyMatrices (fun _ => 0) f a (createIdentMat n) n).2 idx = a idx := by
  have hn : 0 < n := by
    rcases Nat.eq_zero_or_pos n with rfl | hn
    · simp at h
    · exact hn
  have e : ∀ d0 b : Buf ℚ, (multiplyMatrices d0 f a b n).2 idx = multiplyMatrix d0 a b n idx := by
    intro d0 b
    unfold multiplyMatrices
    dsimp only
    rw [if_pos hf, if_pos h]
  refine ⟨by rw [e]; rfl, ?_⟩
  rw [e]
  unfold multiplyMatrix
  have hcol : idx / n < n := Nat.div_lt_of_lt_mul h
  rw [Finset.sum_eq_single (idx / n)]
  · have e1 : idx / n + idx / n * n = idx / n * n + idx / n := by ring
    rw [e1, createIdentMat_mul_add n (idx / n) (idx / n) hcol hcol, if_pos rfl, mul_one,
      zero_add]
    have e2 : idx % n + idx / n * n = idx := by
      have := Nat.mod_add_div idx n
      have e3 : idx / n * n = n * (idx / n) := by ring
      omega
    rw [e2]
  · intro k hk hkcol
    have e1 : k + idx / n * n = idx / n * n + k := by ring
    rw [e1, createIdentMat_mul_add n (idx / n) k hcol (List.mem_range.mp (by simpa using hk)),
      if_neg hkcol, mul_zero]
  · intro hno
    exact absurd (Finset.mem_range.mpr hcol) hno

/-- Witness for C3's amended theorem at `n = 2`, `idx = 3`, with both
factors the 2×2 identity. -/
theorem multiplyMatrices_formula_and_identity_witness :
    (multiplyMatrices (fun _ => 0) 7 (createIdentMat 2 : Buf ℚ) (createIdentMat 2) 2).2 3
        = (fun _ => (0 : ℚ)) 3 + ∑ k ∈ Finset.range 2,
            (createIdentMat 2 (3 % 2 + k * 2) : ℚ) * createIdentMat 2 (k + 3 / 2 * 2) ∧
    (multiplyMatrices (fun _ => 0) 7 (createIdentMat 2 : Buf ℚ) (createIdentMat 2) 2).2 3
        = (createIdentMat 2 3 : ℚ) :=
  multiplyMatrices_formula_and_identity 2 7 3 (createIdentMat 2) (createIdentMat 2)
    (fun _ => 0) (by omega) (by omega)

/-- C5: for every distance matrix, index inside the launch grid and
scalars, the Gaussian-correlation operation produces
`(variance - nugget) * exp(-theta * distance[idx])`, and when the
distance entry is 0 the output entry is exactly `variance - nugget`. -/
theorem gaussian_correlation_formula (variance a theta : ℝ)
    (outputMatrix distanceMatrix : ℕ → ℝ) (n f idx : ℕ) (hf : 7 ≤ f) (h : idx < n * n) :
    (calculateGaussianCorrelation f outputMatrix distanceMatrix variance a theta n).2 idx
        = (variance - a) * Real.exp (-(theta * distanceMatrix idx)) ∧
    (distanceMatrix idx = 0 →
      (calculateGaussianCorrelation f outputMatrix distanceMatrix variance a theta n).2 idx
        = variance - a) := by
  have e : (calculateGaussianCorrelation f outputMatrix distanceMatrix variance a theta n).2 idx
      = (variance - a) * Real.exp (-1 * theta * distanceMatrix idx) := by
    unfold calculateGaussianCorrelation
    dsimp only
    rw [if_pos hf, if_pos h]
    rfl
  have earg : (-1 : ℝ) * theta * distanceMatrix idx = -(theta * distanceMatrix idx) := by ring
  constructor
  · rw [e, earg]
  · intro h0
    rw [e, h0]
    simp [Real.exp_zero]

/-- Witness for C5 at `variance = 3`, `nugget = 1`, `theta = 2`,
distance 0, `n = 1`. -/
theorem gaussian_correlation_formula_witness :
    (calculateGaussianCorrelation 7 (fun _ => 0) (fun _ => 0) 3 1 2 1).2 0
        = (3 - 1) * Real.exp (-(2 * (0 : ℝ))) ∧
    (calculateGaussianCorrelation 7 (fun _ => 0) (fun _ => 0) 3 1 2 1).2 0 = 3 - 1 := by
  have h := gaussian_correlation_formula 3 1 2 (fun _ => 0) (fun _ => 0) 1 7 0 (by omega)
    (by omega)
  exact ⟨h.1, h.2 rfl⟩

/-- C2 (code bug): `metamodelSetup` builds the paired buffer with
`createIdentityMatrix(identityMatrix, dimension)` — not
`dimension + 1` — so at dimension 1 the buffer handed to the
inversion of the 2×2 extended matrix is `[1,0,0,0]`: its entry at
flat index 3 is 0 although index 3 is a diagonal position of the 2×2
matrix (`3 % (2+1) = 0`), where the 2×2 identity required by
`invertMatrix`'s documented precondition holds 1. -/
theorem paired_buffer_missing_diagonal_one :
    pairedBufferAtInversion (K := ℚ) (fun _ => 9) 99 1 3 = 0 ∧
    3 % (2 + 1) = 0 ∧ (createIdentMat 2 3 : ℚ) = 1 := by
  refine ⟨?_, by omega, ?_⟩ <;> decide

/-- C6 (code bug): the in-place re-striding loop of `extendMatrix`
overwrites entries it later reads.  For the 3×3 input whose
column-major entries are `0..8`, the extended 4×4 output holds 5 at
flat index 8 — the position of block entry (row 0, column 2) — while
the input entry (0,2), at flat index `0 + 2*3`, is 6.  The top-left
block of the output therefore differs from the input matrix. -/
theorem extendMatrix_corrupts_top_left_block :
    (extendMatrix (K := ℚ) 99 (fun _ => 0) (fun index => (index : ℚ)) 3).2.1 8 = 5 ∧
    (fun index => (index : ℚ)) (0 + 2 * 3) = 6 ∧ (5 : ℚ) ≠ 6 := by
  refine ⟨?_, by norm_num, by norm_num⟩
  decide

/-- C9 (code bug): `calculateWeightVector` allocates and copies only
`dimension` doubles for the covariance-vector device buffer but
launches the dense `multiplyMatrix` kernel over the full
`dimension × dimension` grid; at dimension 2 the thread at index 2
reads that buffer at index 2 (`multiplyKernelVectorReads`), at or
past the allocation, and consequently the operation's result depends
on the unallocated memory beyond the vector. -/
theorem weight_vector_reads_past_allocation :
    (2 ∈ multiplyKernelVectorReads 2 2 ∧ ¬ (2 < 2)) ∧
    (calculateWeightVector (K := ℚ) (fun _ => 0) (fun _ => 0) 8 (fun _ => 0) (fun _ => 1)
        (fun _ => 0) 2).2 2 ≠
      (calculateWeightVector (K := ℚ) (fun _ => 0) (fun _ => 1) 8 (fun _ => 0) (fun _ => 1)
        (fun _ => 0) 2).2 2 := by
  refine ⟨by decide, ?_⟩
  simp only [calculateWeightVector, multiplyMatrix, Finset.sum_range_succ]
  norm_num

/-- C4 counterexample: `extendMatrix` re-strides the caller's input
buffer in place before its first CUDA call, so when that first
allocation fails (`f = 0`) the wrapper returns a failure status while
the input buffer is already modified: at dimension 1 the input
`[0,0,1,0]` now holds 1 at flat index 3, where it held 0. -/
theorem extendMatrix_mutates_input_on_failure :
    (extendMatrix (K := ℚ) 0 (fun _ => 0) (fun index => if index = 2 then 1 else 0) 1).1
        = false ∧
    (extendMatrix (K := ℚ) 0 (fun _ => 0) (fun index => if index = 2 then 1 else 0) 1).2.2 3
        = 1 ∧
    (fun index => if index = 2 then (1 : ℚ) else 0) 3 = 0 := by
  refine ⟨by decide, by decide, by decide⟩

/-- C4 amended: for the distance, correlation, weight-vector, plain
multiply and identity-construction wrappers a failure status implies
the caller's output buffer is unmodified (output buffers are written
only by the final, successful device-to-host copy), and `invertMatrix`
never modifies `inputMatrix` on failure; however `extendMatrix`
rewrites the caller's `inputMatrix` in place on every call, failed or
not (its output buffer is still unmodified on failure), and
`invertMatrix` has already overwritten `outputMatrix` when its final
copy-back of `inputMatrix` (call 10) fails. -/
theorem wrappers_preserve_host_memory_on_failure (f n : ℕ)
    (out a b inp invCov covVec d0 gvec gtail gInv : Buf ℚ)
    (rout rin : ℕ → ℝ) (variance nug theta : ℝ) :
    ((createIdentityMatrix f out n).1 = false → (createIdentityMatrix f out n).2 = out) ∧
    ((calculateDistanceBetweenMatrices f out a b n).1 = false →
      (calculateDistanceBetweenMatrices f out a b n).2 = out) ∧
    ((calculateDistanceBetweenMatrixVector gtail f out a b n).1 = false →
      (calculateDistanceBetweenMatrixVector gtail f out a b n).2 = out) ∧
    ((calculateGaussianCorrelation f rout rin variance nug theta n).1 = false →
      (calculateGaussianCorrelation f rout rin variance nug theta n).2 = rout) ∧
    ((calculateWeightVector d0 gvec f out invCov covVec n).1 = false →
      (calculateWeightVector d0 gvec f out invCov covVec n).2 = out) ∧
    ((multiplyMatrices d0 f out inp n).1 = false →
      (multiplyMatrices d0 f out inp n).2 = out) ∧
    ((extendMatrix f out inp n).1 = false → (extendMatrix f out inp n).2.1 = out) ∧
    ((extendMatrix f out inp n).2.2 = restripeFold n inp) ∧
    ((invertMatrix gInv f out inp n).1 = false → (invertMatrix gInv f out inp n).2.2 = inp) ∧
    ((invertMatrix gInv 10 out inp n).1 = false ∧
      (invertMatrix gInv 10 out inp n).2.1 = (invertMatrixSeq n out inp gInv).1) := by
  refine ⟨?_, ?_, ?_, ?_, ?_, ?_, ?_, rfl, ?_, ?_, ?_⟩
  · intro hst
    simp only [createIdentityMatrix, decide_eq_false_iff_not] at hst
    simp [createIdentityMatrix, hst]
  · intro hst
    simp only [calculateDistanceBetweenMatrices, decide_eq_false_iff_not] at hst
    simp [calculateDistanceBetweenMatrices, hst]
  · intro hst
    simp only [calculateDistanceBetweenMatrixVector, decide_eq_false_iff_not] at hst
    simp [calculateDistanceBetweenMatrixVector, hst]
  · intro hst
    simp only [calculateGaussianCorrelation, decide_eq_false_iff_not] at hst
    simp [calculateGaussianCorrelation, hst]
  · intro hst
    simp only [calculateWeightVector, decide_eq_false_iff_not] at hst
    simp [calculateWeightVector, hst]
  · intro hst
    simp only [multiplyMatrices, decide_eq_false_iff_not] at hst
    simp [multiplyMatrices, hst]
  · intro hst
    simp only [extendMatrix, decide_eq_false_iff_not] at hst
    simp [extendMatrix, hst]
  · intro hst
    simp only [invertMatrix, decide_eq_false_iff_not] at hst
    simp [invertMatrix, hst]
  · simp [invertMatrix]
  · simp [invertMatrix]

/-- Witness for C4's amended theorem at `f = 0`, `n = 1`, with all
buffers zero and `invertMatrix` evaluated at its failing call 10. -/
theorem wrappers_preserve_host_memory_on_failure_witness :
    (createIdentityMatrix 0 (fun _ => (0 : ℚ)) 1).2 = (fun _ => (0 : ℚ)) ∧
    (calculateDistanceBetweenMatrices 0 (fun _ => (0 : ℚ)) (fun _ => 0) (fun _ => 0) 1).2
        = (fun _ => (0 : ℚ)) ∧
    (calculateDistanceBetweenMatrixVector (fun _ => (0 : ℚ)) 0 (fun _ => 0) (fun _ => 0)
        (fun _ => 0) 1).2 = (fun _ => (0 : ℚ)) ∧
    (calculateGaussianCorrelation 0 (fun _ => (0 : ℝ)) (fun _ => 0) 0 0 0 1).2
        = (fun _ => (0 : ℝ)) ∧
    (calculateWeightVector (fun _ => (0 : ℚ)) (fun _ => 0) 0 (fun _ => 0) (fun _ => 0)
        (fun _ => 0) 1).2 = (fun _ => (0 : ℚ)) ∧
    (multiplyMatrices (fun _ => (0 : ℚ)) 0 (fun _ => 0) (fun _ => 0) 1).2
        = (fun _ => (0 : ℚ)) ∧
    (extendMatrix (K := ℚ) 0 (fun _ => 0) (fun _ => 0) 1).2.1 = (fun _ => (0 : ℚ)) ∧
    (invertMatrix (fun _ => (0 : ℚ)) 0 (fun _ => 0) (fun _ => 0) 1).2.2
        = (fun _ => (0 : ℚ)) ∧
    ((invertMatrix (fun _ => (0 : ℚ)) 10 (fun _ => 0) (fun _ => 0) 1).1 = false ∧
      (invertMatrix (fun _ => (0 : ℚ)) 10 (fun _ => 0) (fun _ => 0) 1).2.1
        = (invertMatrixSeq 1 (fun _ => 0) (fun _ => 0) (fun _ => (0 : ℚ))).1) := by
  have h := wrappers_preserve_host_memory_on_failure 0 1 (fun _ => (0 : ℚ)) (fun _ => 0)
    (fun _ => 0) (fun _ => 0) (fun _ => 0) (fun _ => 0) (fun _ => 0) (fun _ => 0)
    (fun _ => 0) (fun _ => 0) (fun _ => (0 : ℝ)) (fun _ => 0) 0 0 0
  exact ⟨h.1 rfl, h.2.1 rfl, h.2.2.1 rfl, h.2.2.2.1 rfl, h.2.2.2.2.1 rfl,
    h.2.2.2.2.2.1 rfl, h.2.2.2.2.2.2.1 rfl, h.2.2.2.2.2.2.2.2.1 rfl,
    h.2.2.2.2.2.2.2.2.2⟩

lemma mem_descList (n x : ℕ) (h : x ≤ n) : x ∈ descList n := by
  unfold descList
  exact List.mem_map.mpr ⟨n - x, List.mem_range.mpr (by omega), by omega⟩

lemma descList_le (n x : ℕ) (h : x ∈ descList n) : x ≤ n := by
  unfold descList at h
  obtain ⟨k, hk, rfl⟩ := List.mem_map.mp h
  omega

lemma descPairs_le (n : ℕ) (ij : ℕ × ℕ) (h : ij ∈ descPairs n) : ij.1 ≤ n ∧ ij.2 ≤ n := by
  unfold descPairs at h
  obtain ⟨i, hi, hj⟩ := List.mem_flatMap.mp h
  obtain ⟨j, hjl, rfl⟩ := List.mem_map.mp hj
  exact ⟨descList_le n i hi, descList_le n j hjl⟩

/-- C10: on every call (any fault index, in particular before any
device operation has run), `extendMatrix` leaves the caller's
`inputMatrix` rewritten by the in-place stride-`n` to stride-`(n+1)`
re-striding loop; the loop's write footprint is exactly the flat
indices `0 .. (n+1)² - 1`, so the input buffer must have capacity
`(n+1)²` doubles although it is documented as `n×n`. -/
theorem extendMatrix_restripes_input_in_place (n f : ℕ) (out inp : Buf ℚ) (hn : 1 ≤ n) :
    ((extendMatrix f out inp n).2.2 = restripeFold n inp) ∧
    (∀ index, index < (n + 1) * (n + 1) → index ∈ restripeWrites n) ∧
    (∀ p ∈ restripeWrites n, p < (n + 1) * (n + 1)) := by
  refine ⟨rfl, ?_, ?_⟩
  · intro idx hidx
    have hm : idx % (n + 1) < n + 1 := Nat.mod_lt _ (by omega)
    have hd : idx / (n + 1) < n + 1 := Nat.div_lt_of_lt_mul hidx
    unfold restripeWrites descPairs
    refine List.mem_map.mpr ⟨(idx % (n + 1), idx / (n + 1)), ?_, ?_⟩
    · exact List.mem_flatMap.mpr ⟨idx % (n + 1), mem_descList n _ (by omega),
        List.mem_map.mpr ⟨idx / (n + 1), mem_descList n _ (by omega), rfl⟩⟩
    · show idx % (n + 1) + idx / (n + 1) * (n + 1) = idx
      rw [mul_comm]
      exact Nat.mod_add_div idx (n + 1)
  · intro p hp
    unfold restripeWrites at hp
    obtain ⟨ij, hij, rfl⟩ := List.mem_map.mp hp
    obtain ⟨hi2, hj2⟩ := descPairs_le n ij hij
    have h1 : ij.2 * (n + 1) ≤ n * (n + 1) := Nat.mul_le_mul_right _ hj2
    have h2 : (n + 1) * (n + 1) = n * (n + 1) + (n + 1) := by ring
    omega

/-- Witness for C10 at `n = 1`, `f = 0`: the input buffer equals its
re-striped image even though the wrapper failed before any device
call, and index 3 = `(1+1)² - 1` is in the write footprint. -/
theorem extendMatrix_restripes_input_in_place_witness :
    ((extendMatrix 0 (fun _ => (0 : ℚ)) (fun index => if index = 2 then (3 : ℚ) else 0) 1).2.2
        = restripeFold 1 (fun index => if index = 2 then (3 : ℚ) else 0)) ∧
    3 ∈ restripeWrites 1 := by
  have h := extendMatrix_restripes_input_in_place 1 0 (fun _ => (0 : ℚ))
    (fun index => if index = 2 then (3 : ℚ) else 0) (by omega)
  exact ⟨h.1, h.2.1 3 (by omega)⟩

/-- C7 counterexample: when the very first device call of
`metamodelSetup` fails, the driver does log and stop, but the value
it returns is exactly 0 — an ordinary zero, indistinguishable from a
legitimate zero estimate, not a distinguishable failure indication. -/
theorem metamodelSetup_failure_returns_ordinary_zero :
    (metamodelSetup (fun _ => 0) (fun _ => 0) (fun _ => 0) (fun _ => 0) (fun _ => 0)
        (fun _ => 0) (fun _ => 0) (fun _ => 0) 0 1 0 1 0
        (fun _ => 0) (fun _ => 0) (fun _ => 0)).value = 0 ∧
    (metamodelSetup (fun _ => 0) (fun _ => 0) (fun _ => 0) (fun _ => 0) (fun _ => 0)
        (fun _ => 0) (fun _ => 0) (fun _ => 0) 0 1 0 1 0
        (fun _ => 0) (fun _ => 0) (fun _ => 0)).logged = true := by
  constructor <;> simp [metamodelSetup]

/-- C7 amended: whenever any of the 67 device calls of a
`metamodelSetup` run fails, the driver attempts no operation beyond
the one containing the failing call (`driverStepOfCall`), prints the
failure diagnostics, frees its three host allocations (the source
frees them unconditionally at `SetupError`), and returns 0.0 — a
value that is an ordinary zero rather than a distinguishable failure
indication. -/
theorem metamodelSetup_short_circuits (gDistTail gInvBuf gWeightOut gVecTail gMultOut
    hostG1 hostG2 hostG3 : ℕ → ℝ) (f n : ℕ) (theta variance a : ℝ)
    (designSite testSite designSiteValues : ℕ → ℝ) (hf : f < 67) :
    (metamodelSetup gDistTail gInvBuf gWeightOut gVecTail gMultOut hostG1 hostG2 hostG3
        f n theta variance a designSite testSite designSiteValues).value = 0 ∧
    (metamodelSetup gDistTail gInvBuf gWeightOut gVecTail gMultOut hostG1 hostG2 hostG3
        f n theta variance a designSite testSite designSiteValues).logged = true ∧
    (metamodelSetup gDistTail gInvBuf gWeightOut gVecTail gMultOut hostG1 hostG2 hostG3
        f n theta variance a designSite testSite designSiteValues).stepsRun
      = driverStepOfCall f := by
  rcases Nat.lt_or_ge f 1 with h | h
  · simp [metamodelSetup, driverStepOfCall, h]
  rcases Nat.lt_or_ge f 5 with h2 | h2
  · have a1 : ¬ f < 1 := by omega
    have a2 : ¬ (4 : ℕ) ≤ f - 1 := by omega
    simp [metamodelSetup, createIdentityMatrix, driverStepOfCall, a1, a2, h, h2]
  rcases Nat.lt_or_ge f 13 with h3 | h3
  · have a1 : ¬ f < 1 := by omega
    have a2 : (4 : ℕ) ≤ f - 1 := by omega
    have a3 : ¬ (8 : ℕ) ≤ f - 5 := by omega
    have b1 : ¬ f < 5 := by omega
    simp [metamodelSetup, createIdentityMatrix, calculateDistanceBetweenMatrices,
      driverStepOfCall, a1, a2, a3, b1, h3]
  rcases Nat.lt_or_ge f 21 with h4 | h4
  · have a1 : ¬ f < 1 := by omega
    have a2 : (4 : ℕ) ≤ f - 1 := by omega
    have a3 : (8 : ℕ) ≤ f - 5 := by omega
    have a4 : ¬ (8 : ℕ) ≤ f - 13 := by omega
    have b1 : ¬ f < 5 := by omega
    have b2 : ¬ f < 13 := by omega
    simp [metamodelSetup, createIdentityMatrix, calculateDistanceBetweenMatrices,
      calculateDistanceBetweenMatrixVector, driverStepOfCall, a1, a2, a3, a4, b1, b2, h4]
  rcases Nat.lt_or_ge f 28 with h5 | h5
  · have a1 : ¬ f < 1 := by omega
    have a2 : (4 : ℕ) ≤ f - 1 := by omega
    have a3 : (8 : ℕ) ≤ f - 5 := by omega
    have a4 : (8 : ℕ) ≤ f - 13 := by omega
    have a5 : ¬ (7 : ℕ) ≤ f - 21 := by omega
    have b1 : ¬ f < 5 := by omega
    have b2 : ¬ f < 13 := by omega
    have b3 : ¬ f < 21 := by omega
    simp [metamodelSetup, createIdentityMatrix, calculateDistanceBetweenMatrices,
      calculateDistanceBetweenMatrixVector, calculateGaussianCorrelation,
      driverStepOfCall, a1, a2, a3, a4, a5, b1, b2, b3, h5]
  rcases Nat.lt_or_ge f 35 with h6 | h6
  · have a1 : ¬ f < 1 := by omega
    have a2 : (4 : ℕ) ≤ f - 1 := by omega
    have a3 : (8 : ℕ) ≤ f - 5 := by omega
    have a4 : (8 : ℕ) ≤ f - 13 := by omega
    have a5 : (7 : ℕ) ≤ f - 21 := by omega
    have a6 : ¬ (7 : ℕ) ≤ f - 28 := by omega
    have b1 : ¬ f < 5 := by omega
    have b2 : ¬ f < 13 := by omega
    have b3 : ¬ f < 21 := by omega
    have b4 : ¬ f < 28 := by omega
    simp [metamodelSetup, createIdentityMatrix, calculateDistanceBetweenMatrices,
      calculateDistanceBetweenMatrixVector, calculateGaussianCorrelation,
      driverStepOfCall, a1, a2, a3, a4, a5, a6, b1, b2, b3, b4, h6]
  rcases Nat.lt_or_ge f 41 with h7 | h7
  · have a1 : ¬ f < 1 := by omega
    have a2 : (4 : ℕ) ≤ f - 1 := by omega
    have a3 : (8 : ℕ) ≤ f - 5 := by omega
    have a4 : (8 : ℕ) ≤ f - 13 := by omega
    have a5 : (7 : ℕ) ≤ f - 21 := by omega
    have a6 : (7 : ℕ) ≤ f - 28 := by omega
    have a7 : ¬ (6 : ℕ) ≤ f - 35 := by omega
    have b1 : ¬ f < 5 := by omega
    have b2 : ¬ f < 13 := by omega
    have b3 : ¬ f < 21 := by omega
    have b4 : ¬ f < 28 := by omega
    have b5 : ¬ f < 35 := by omega
    simp [metamodelSetup, createIdentityMatrix, calculateDistanceBetweenMatrices,
      calculateDistanceBetweenMatrixVector, calculateGaussianCorrelation, extendMatrix,
      driverStepOfCall, a1, a2, a3, a4, a5, a6, a7, b1, b2, b3, b4, b5, h7]
  rcases Nat.lt_or_ge f 52 with h8 | h8
  · have a1 : ¬ f < 1 := by omega
    have a2 : (4 : ℕ) ≤ f - 1 := by omega
    have a3 : (8 : ℕ) ≤ f - 5 := by omega
    have a4 : (8 : ℕ) ≤ f - 13 := by omega
    have a5 : (7 : ℕ) ≤ f - 21 := by omega
    have a6 : (7 : ℕ) ≤ f - 28 := by omega
    have a7 : (6 : ℕ) ≤ f - 35 := by omega
    have a8 : ¬ (11 : ℕ) ≤ f - 41 := by omega
    have b1 : ¬ f < 5 := by omega
    have b2 : ¬ f < 13 := by omega
    have b3 : ¬ f < 21 := by omega
    have b4 : ¬ f < 28 := by omega
    have b5 : ¬ f < 35 := by omega
    have b6 : ¬ f < 41 := by omega
    simp [metamodelSetup, createIdentityMatrix, calculateDistanceBetweenMatrices,
      calculateDistanceBetweenMatrixVector, calculateGaussianCorrelation, extendMatrix,
      invertMatrix, driverStepOfCall, a1, a2, a3, a4, a5, a6, a7, a8, b1, b2, b3, b4, b5,
      b6, h8]
  rcases Nat.lt_or_ge f 60 with h9 | h9
  · have a1 : ¬ f < 1 := by omega
    have a2 : (4 : ℕ) ≤ f - 1 := by omega
    have a3 : (8 : ℕ) ≤ f - 5 := by omega
    have a4 : (8 : ℕ) ≤ f - 13 := by omega
    have a5 : (7 : ℕ) ≤ f - 21 := by omega
    have a6 : (7 : ℕ) ≤ f - 28 := by omega
    have a7 : (6 : ℕ) ≤ f - 35 := by omega
    have a8 : (11 : ℕ) ≤ f - 41 := by omega
    have a9 : ¬ (8 : ℕ) ≤ f - 52 := by omega
    have b1 : ¬ f < 5 := by omega
    have b2 : ¬ f < 13 := by omega
    have b3 : ¬ f < 21 := by omega
    have b4 : ¬ f < 28 := by omega
    have b5 : ¬ f < 35 := by omega
    have b6 : ¬ f < 41 := by omega
    have b7 : ¬ f < 52 := by omega
    simp [metamodelSetup, createIdentityMatrix, calculateDistanceBetweenMatrices,
      calculateDistanceBetweenMatrixVector, calculateGaussianCorrelation, extendMatrix,
      invertMatrix, calculateWeightVector, driverStepOfCall, a1, a2, a3, a4, a5, a6, a7,
      a8, a9, b1, b2, b3, b4, b5, b6, b7, h9]
  · have a1 : ¬ f < 1 := by omega
    have a2 : (4 : ℕ) ≤ f - 1 := by omega
    have a3 : (8 : ℕ) ≤ f - 5 := by omega
    have a4 : (8 : ℕ) ≤ f - 13 := by omega
    have a5 : (7 : ℕ) ≤ f - 21 := by omega
    have a6 : (7 : ℕ) ≤ f - 28 := by omega
    have a7 : (6 : ℕ) ≤ f - 35 := by omega
    have a8 : (11 : ℕ) ≤ f - 41 := by omega
    have a9 : (8 : ℕ) ≤ f - 52 := by omega
    have a10 : ¬ (7 : ℕ) ≤ f - 60 := by omega
    have b1 : ¬ f < 5 := by omega
    have b2 : ¬ f < 13 := by omega
    have b3 : ¬ f < 21 := by omega
    have b4 : ¬ f < 28 := by omega
    have b5 : ¬ f < 35 := by omega
    have b6 : ¬ f < 41 := by omega
    have b7 : ¬ f < 52 := by omega
    have b8 : ¬ f < 60 := by omega
    simp [metamodelSetup, createIdentityMatrix, calculateDistanceBetweenMatrices,
      calculateDistanceBetweenMatrixVector, calculateGaussianCorrelation, extendMatrix,
      invertMatrix, calculateWeightVector, multiplyMatrices, driverStepOfCall, a1, a2,
      a3, a4, a5, a6, a7, a8, a9, a10, b1, b2, b3, b4, b5, b6, b7, b8]

/-- Witness for C7's amended theorem at `f = 14` (a failure inside
the matrix-vector distance operation), `n = 1`. -/
theorem metamodelSetup_short_circuits_witness :
    (metamodelSetup (fun _ => 0) (fun _ => 0) (fun _ => 0) (fun _ => 0) (fun _ => 0)
        (fun _ => 0) (fun _ => 0) (fun _ => 0) 14 1 0 1 0
        (fun _ => 0) (fun _ => 0) (fun _ => 0)).value = 0 ∧
    (metamodelSetup (fun _ => 0) (fun _ => 0) (fun _ => 0) (fun _ => 0) (fun _ => 0)
        (fun _ => 0) (fun _ => 0) (fun _ => 0) 14 1 0 1 0
        (fun _ => 0) (fun _ => 0) (fun _ => 0)).logged = true ∧
    (metamodelSetup (fun _ => 0) (fun _ => 0) (fun _ => 0) (fun _ => 0) (fun _ => 0)
        (fun _ => 0) (fun _ => 0) (fun _ => 0) 14 1 0 1 0
        (fun _ => 0) (fun _ => 0) (fun _ => 0)).stepsRun = driverStepOfCall 14 :=
  metamodelSetup_short_circuits (fun _ => 0) (fun _ => 0) (fun _ => 0) (fun _ => 0)
    (fun _ => 0) (fun _ => 0) (fun _ => 0) (fun _ => 0) 14 1 0 1 0
    (fun _ => 0) (fun _ => 0) (fun _ => 0) (by omega)
